import Mathlib

/-!
# Verification of the round-robin teammate-pairing generator (kob-tracker)

Shallow embedding of the schedule-generation core of the kob-tracker
application: `generateAllTeammatePairs`, `createGamesFromTeammatePairs`
and their caller `generateRoundRobinGames` (src/unnamed/part_004), together
with the UI handler `handleGenerateRoundRobin` (src/unnamed/part_001).

Players are records with an opaque string identifier and a display name;
arrays become lists, the `usedPairs : Set<string>` becomes a list of keys
queried by membership, and the nested index loops become iterations over
`List.range` / `List.range'` exactly mirroring the loop bounds.
-/

/-- A player: opaque identifier plus display name (the only fields the
pairing core reads are `id`; `name` is carried along as in the source). -/
structure Player where
  id : String
  name : String
  deriving DecidableEq, Repr, Inhabited

/-- An abstract generated game: two teammate pairs, as built by
`createGamesFromTeammatePairs` (`{ team1: [Player, Player], team2: [Player, Player] }`). -/
structure AbstractGame where
  team1 : Player × Player
  team2 : Player × Player
  deriving DecidableEq, Repr

/-- The record handed to the persistence sink for one game
(`NewGame` in the source, with default status `"active"`). -/
structure NewGame where
  team1_player1_id : String
  team1_player2_id : String
  team2_player1_id : String
  team2_player2_id : String
  status : String
  deriving DecidableEq, Repr

/-- Code-unit comparison of characters, as JavaScript string comparison does. -/
def charLt (a b : Char) : Bool := a.val.toNat < b.val.toNat

/-- Lexicographic strict order on character sequences: the comparison JS
`Array.prototype.sort()` applies to strings. -/
def strLtb : List Char → List Char → Bool
  | [], [] => false
  | [], _ :: _ => true
  | _ :: _, [] => false
  | a :: as, b :: bs =>
    if charLt a b then true
    else if charLt b a then false
    else strLtb as bs

/-- `a` sorts no later than `b` under JS lexicographic string comparison. -/
def strLeb (a b : String) : Bool := !(strLtb b.data a.data)

/-- Canonical key of an unordered pair:
`[p.id, q.id].sort().join('-')` from the source (a two-element JS sort keeps
the order when the first element is ≤ the second and swaps otherwise). -/
def pairKey (p q : Player) : String :=
  if strLeb p.id q.id then p.id ++ "-" ++ q.id else q.id ++ "-" ++ p.id

/-- Body of the outer loop of `generateAllTeammatePairs`: for a fixed `i`,
the inner loop `for (let j = i + 1; j < players.length; j++)` pushes
`[players[i], players[j]]`. -/
def innerPairs (players : List Player) (i : Nat) : List (Player × Player) :=
  (List.range' (i + 1) (players.length - (i + 1))).map
    (fun j => (players.getD i default, players.getD j default))

/-- `generateAllTeammatePairs` from the source: nested loops
`for i in [0, N)`, `for j in [i+1, N)` pushing `[players[i], players[j]]`. -/
def generateAllTeammatePairs (players : List Player) : List (Player × Player) :=
  (List.range players.length).flatMap (innerPairs players)

/-- The inner search of `createGamesFromTeammatePairs`: scan the pairs of
`remainingPlayers` in the same nested `(i, j)` index order (realised by
`generateAllTeammatePairs` applied to `remainingPlayers`) and return the first
whose canonical key is not in `usedPairs`; `none` when the loops finish
without a hit.  This mirrors the double loop with `break` in the source. -/
def findTeam2 (remainingPlayers : List Player) (usedPairs : List String) :
    Option (Player × Player) :=
  (generateAllTeammatePairs remainingPlayers).find?
    (fun t => !(usedPairs.contains (pairKey t.1 t.2)))

/-- The main loop of `createGamesFromTeammatePairs`, with the mutable
`games` array rendered as the output list and the mutable `usedPairs`
set threaded through the recursion. -/
def createGamesAux (allPlayers : List Player) :
    List (Player × Player) → List String → List AbstractGame
  | [], _ => []
  | team1 :: rest, usedPairs =>
    let team1Key := pairKey team1.1 team1.2
    if usedPairs.contains team1Key then
      createGamesAux allPlayers rest usedPairs
    else
      let remainingPlayers :=
        allPlayers.filter (fun p => p.id != team1.1.id && p.id != team1.2.id)
      if 2 ≤ remainingPlayers.length then
        match findTeam2 remainingPlayers usedPairs with
        | some team2 =>
            { team1 := team1, team2 := team2 } ::
              createGamesAux allPlayers rest
                (pairKey team2.1 team2.2 :: team1Key :: usedPairs)
        | none => createGamesAux allPlayers rest usedPairs
      else
        createGamesAux allPlayers rest usedPairs

/-- `createGamesFromTeammatePairs` from the source: greedy single pass over
the candidate teammate pairs, starting from an empty `usedPairs` set. -/
def createGamesFromTeammatePairs (teammatePairs : List (Player × Player))
    (allPlayers : List Player) : List AbstractGame :=
  createGamesAux allPlayers teammatePairs []

/-- The `NewGame` record built for one abstract game inside
`generateRoundRobinGames` (ids of the four players, status `"active"`). -/
def gameToNewGame (g : AbstractGame) : NewGame :=
  { team1_player1_id := g.team1.1.id
    team1_player2_id := g.team1.2.id
    team2_player1_id := g.team2.1.id
    team2_player2_id := g.team2.2.id
    status := "active" }

/-- Outcome of `generateRoundRobinGames` as observed by its caller. -/
inductive RRResult where
  | insufficientPlayers
  | notAuthenticated
  | persistenceFailure
  | ok (games : List AbstractGame)
  deriving DecidableEq, Repr

/-- `generateRoundRobinGames` from the source, with its effects made explicit.
`authOk` models `supabase.auth.getUser()` succeeding; `fails g = true` models
the independent `createGame g` write rejecting.  The first component is what
the returned promise does (`Promise.all` rejects as soon as any write fails,
after the `'Need at least 4 players to generate games'` and authentication
guards); the second component is the list of records the sink actually
persisted — every write is initiated independently, so the successful ones
stay persisted even when the overall call rejects. -/
def generateRoundRobinGames (selectedPlayers : List Player) (authOk : Bool)
    (fails : NewGame → Bool) : RRResult × List NewGame :=
  if selectedPlayers.length < 4 then (.insufficientPlayers, [])
  else if !authOk then (.notAuthenticated, [])
  else
    let teammatePairs := generateAllTeammatePairs selectedPlayers
    let games := createGamesFromTeammatePairs teammatePairs selectedPlayers
    let newGames := games.map gameToNewGame
    let persisted := newGames.filter (fun g => !fails g)
    (if newGames.any fails then .persistenceFailure else .ok games, persisted)

/-- What `handleGenerateRoundRobin` (src/unnamed/part_001) shows the user. -/
inductive UIMessage where
  | success (msg : String)
  | uiError (msg : String)
  deriving DecidableEq, Repr

/-- `handleGenerateRoundRobin` from the source: on success it reports
`Successfully created N games! ...` with `N = createdGames.length`; any
rejection is caught and reported as the fixed message
`"Failed to generate round robin games"`.  The persisted records
(second component) are whatever the sink kept. -/
def handleGenerateRoundRobin (allPlayers : List Player) (authOk : Bool)
    (fails : NewGame → Bool) : UIMessage × List NewGame :=
  match generateRoundRobinGames allPlayers authOk fails with
  | (.ok games, persisted) =>
      (.success ("Successfully created " ++ toString games.length ++
        " games! Each player will play with different teammates."), persisted)
  | (_, persisted) => (.uiError "Failed to generate round robin games", persisted)

/-- The canonical keys of the two teammate pairs of a game. -/
def gameKeys (g : AbstractGame) : List String :=
  [pairKey g.team1.1 g.team1.2, pairKey g.team2.1 g.team2.2]

/-- The four players of a game, team 1 first. -/
def gamePlayers (g : AbstractGame) : List Player :=
  [g.team1.1, g.team1.2, g.team2.1, g.team2.2]

/-- Modelled from the spec, §4.1: the enumeration order of roster index
pairs — `(i, j)` with `i < j`, iterated with `i` ascending, then `j`
ascending. -/
def indexPairs (n : Nat) : List (Nat × Nat) :=
  (List.range n).flatMap
    (fun i => ((List.range n).filter (fun j => decide (i < j))).map (fun j => (i, j)))

/-- Modelled from the spec, §4.1: the Pair Enumerator described as
"for roster index i < j, pair (i,j), iterated with i ascending, then j
ascending". -/
def specEnumeratePairs (roster : List Player) : List (Player × Player) :=
  (indexPairs roster.length).map
    (fun ij => (roster.getD ij.1 default, roster.getD ij.2 default))

/-- Modelled from the spec, §4.2: one pass of the Schedule Builder over the
candidate list, with `usedPairs` a set of canonical keys.  Step a skips a
candidate whose key is in `usedPairs`; step b removes the candidate's two
players from the roster; step c skips when fewer than two players remain;
step d picks the first pair of `remaining` in §4.1 order whose key is not in
`usedPairs`; step e skips when none exists; step f emits the game and
inserts both canonical keys. -/
def specBuilderAux (roster : List Player) :
    List (Player × Player) → Finset String → List AbstractGame
  | [], _ => []
  | team1 :: restCandidates, usedPairs =>
    if pairKey team1.1 team1.2 ∈ usedPairs then
      specBuilderAux roster restCandidates usedPairs
    else
      let remaining :=
        roster.filter (fun p => decide (¬(p.id = team1.1.id ∨ p.id = team1.2.id)))
      if remaining.length < 2 then
        specBuilderAux roster restCandidates usedPairs
      else
        match (specEnumeratePairs remaining).find?
            (fun t => decide (pairKey t.1 t.2 ∉ usedPairs)) with
        | none => specBuilderAux roster restCandidates usedPairs
        | some team2 =>
            { team1 := team1, team2 := team2 } ::
              specBuilderAux roster restCandidates
                (insert (pairKey team1.1 team1.2)
                  (insert (pairKey team2.1 team2.2) usedPairs))

/-- Modelled from the spec, §4.2: the Schedule Builder, started with an
empty used set. -/
def specScheduleBuilder (candidates : List (Player × Player))
    (roster : List Player) : List AbstractGame :=
  specBuilderAux roster candidates ∅

/-- The mutable array state the pairing core can observe: the caller's
roster array and the candidate-pair array handed to the builder. -/
structure ArrayState where
  players : List Player
  teammatePairs : List (Player × Player)
  deriving DecidableEq, Repr

/-- Store-passing translation of `generateAllTeammatePairs`: the nested
loops thread the array state; every iteration reads `players` from the
current state and pushes onto the local `pairs` accumulator only. -/
def generateAllTeammatePairsS (s : ArrayState) :
    List (Player × Player) × ArrayState :=
  (List.range s.players.length).foldl
    (fun acc i =>
      (List.range' (i + 1) (acc.2.players.length - (i + 1))).foldl
        (fun acc2 j =>
          (acc2.1 ++ [(acc2.2.players.getD i default, acc2.2.players.getD j default)],
           acc2.2))
        acc)
    ([], s)

/-- One iteration of the store-passing loop of
`createGamesFromTeammatePairs`: reads the roster from the threaded state,
updates the local `games` and `usedPairs` accumulators, and hands the state
back unchanged by any write. -/
def createGamesStepS (acc : (List AbstractGame × List String) × ArrayState)
    (team1 : Player × Player) : (List AbstractGame × List String) × ArrayState :=
  let team1Key := pairKey team1.1 team1.2
  if acc.1.2.contains team1Key then (acc.1, acc.2)
  else
    let remainingPlayers :=
      acc.2.players.filter (fun p => p.id != team1.1.id && p.id != team1.2.id)
    if 2 ≤ remainingPlayers.length then
      match findTeam2 remainingPlayers acc.1.2 with
      | some team2 =>
          ((acc.1.1 ++ [{ team1 := team1, team2 := team2 }],
            pairKey team2.1 team2.2 :: team1Key :: acc.1.2), acc.2)
      | none => (acc.1, acc.2)
    else (acc.1, acc.2)

/-- Store-passing translation of `createGamesFromTeammatePairs`: folds
`createGamesStepS` over the candidate array read from the state. -/
def createGamesFromTeammatePairsS (s : ArrayState) :
    List AbstractGame × ArrayState :=
  let r := s.teammatePairs.foldl createGamesStepS (([], []), s)
  (r.1.1, r.2)

/-- Concrete player A of the spec's §8.5 scenario. -/
def pA : Player := { id := "a", name := "A" }

/-- Concrete player B of the spec's §8.5 scenario. -/
def pB : Player := { id := "b", name := "B" }

/-- Concrete player C of the spec's §8.5 scenario. -/
def pC : Player := { id := "c", name := "C" }

/-- Concrete player D of the spec's §8.5 scenario. -/
def pD : Player := { id := "d", name := "D" }

/-- Concrete player E for the five-player scenario. -/
def pE : Player := { id := "e", name := "E" }

/-- The four-player roster [A, B, C, D] of the spec's §8.5 scenario. -/
def rosterABCD : List Player := [pA, pB, pC, pD]

/-- A five-player roster for the spec's §8.7 scenario. -/
def rosterABCDE : List Player := [pA, pB, pC, pD, pE]

/-- The persisted record of the second game the builder emits for
[A, B, C, D] (team AC versus team BD). -/
def ngACBD : NewGame :=
  { team1_player1_id := "a", team1_player2_id := "c"
    team2_player1_id := "b", team2_player2_id := "d", status := "active" }

/-- The persisted record of the third game the builder emits for
[A, B, C, D] (team AD versus team BC). -/
def ngADBC : NewGame :=
  { team1_player1_id := "a", team1_player2_id := "d"
    team2_player1_id := "b", team2_player2_id := "c", status := "active" }

/-- A persistence sink on which exactly the write of `ngACBD` rejects. -/
def failsOne (g : NewGame) : Bool := g == ngACBD

/-- A persistence sink on which the writes of `ngACBD` and `ngADBC` reject. -/
def failsTwo (g : NewGame) : Bool := g == ngACBD || g == ngADBC

/-- Elements of `innerPairs`: for fixed `i`, exactly the pairs
`(players[i], players[j])` with `i < j < players.length`, provided `i` is a
legal index. -/
theorem mem_innerPairs {players : List Player} {i : Nat} (hi : i < players.length)
    {pr : Player × Player} :
    pr ∈ innerPairs players i ↔
      ∃ j, i < j ∧ j < players.length ∧
        pr = (players.getD i default, players.getD j default) := by
  unfold innerPairs
  simp only [List.mem_map, List.mem_range']
  constructor
  · rintro ⟨j, ⟨k, hk, rfl⟩, rfl⟩
    exact ⟨i + 1 + 1 * k, by omega, by omega, rfl⟩
  · rintro ⟨j, hij, hjn, rfl⟩
    exact ⟨j, ⟨j - (i + 1), by omega, by omega⟩, rfl⟩

/-- Elements of `generateAllTeammatePairs`: exactly the pairs
`(players[i], players[j])` with `i < j < players.length`. -/
theorem mem_generateAllTeammatePairs {players : List Player} {pr : Player × Player} :
    pr ∈ generateAllTeammatePairs players ↔
      ∃ i j, i < j ∧ j < players.length ∧
        pr = (players.getD i default, players.getD j default) := by
  unfold generateAllTeammatePairs
  simp only [List.mem_flatMap, List.mem_range]
  constructor
  · rintro ⟨i, hi, hpr⟩
    obtain ⟨j, h1, h2, h3⟩ := (mem_innerPairs hi).mp hpr
    exact ⟨i, j, h1, h2, h3⟩
  · rintro ⟨i, j, h1, h2, h3⟩
    have hi : i < players.length := by omega
    exact ⟨i, hi, (mem_innerPairs hi).mpr ⟨j, h1, h2, h3⟩⟩

/-- Both components of an enumerated pair are drawn from the roster. -/
theorem mem_roster_of_mem_generate {players : List Player} {pr : Player × Player}
    (h : pr ∈ generateAllTeammatePairs players) :
    pr.1 ∈ players ∧ pr.2 ∈ players := by
  obtain ⟨i, j, hij, hj, rfl⟩ := mem_generateAllTeammatePairs.mp h
  have hi : i < players.length := by omega
  rw [List.getD_eq_getElem _ _ hi, List.getD_eq_getElem _ _ hj]
  exact ⟨List.getElem_mem hi, List.getElem_mem hj⟩

/-- When roster identifiers are distinct, the two components of an
enumerated pair have distinct identifiers. -/
theorem id_ne_of_mem_generate {players : List Player}
    (hids : (players.map Player.id).Nodup) {pr : Player × Player}
    (h : pr ∈ generateAllTeammatePairs players) : pr.1.id ≠ pr.2.id := by
  obtain ⟨i, j, hij, hj, rfl⟩ := mem_generateAllTeammatePairs.mp h
  have hi : i < players.length := by omega
  rw [List.getD_eq_getElem _ _ hi, List.getD_eq_getElem _ _ hj]
  intro hcontra
  have hi' : i < (players.map Player.id).length := by simpa using hi
  have hj' : j < (players.map Player.id).length := by simpa using hj
  have : (players.map Player.id)[i] = (players.map Player.id)[j] := by
    simpa using hcontra
  have := (@List.Nodup.getElem_inj_iff _ _ hids i hi' j hj').mp this
  omega

/-- For a roster with at least two entries, the enumeration starts with the
pair of the first two entries. -/
theorem generateAllTeammatePairs_cons₂ (a b : Player) (t : List Player) :
    ∃ rest, generateAllTeammatePairs (a :: b :: t) = (a, b) :: rest := by
  unfold generateAllTeammatePairs
  have hlen : (a :: b :: t).length = t.length + 2 := by simp
  rw [hlen, List.range_eq_range', List.range'_succ]
  rw [List.flatMap_cons]
  unfold innerPairs
  rw [hlen]
  have : t.length + 2 - (0 + 1) = t.length + 1 := by omega
  rw [this, List.range'_succ]
  exact ⟨_, rfl⟩

/-- `Set.has` rendered on the key list: absence is non-membership. -/
theorem contains_eq_false_iff (l : List String) (k : String) :
    l.contains k = false ↔ k ∉ l := by
  constructor
  · intro h hk
    have hc : l.contains k = true := List.elem_iff.mpr hk
    rw [h] at hc
    cases hc
  · intro h
    cases hc : l.contains k with
    | false => rfl
    | true => exact absurd (List.elem_iff.mp hc) h

/-- The keys of a game built from two explicit teams. -/
theorem gameKeys_mk (t1 t2 : Player × Player) :
    gameKeys { team1 := t1, team2 := t2 } = [pairKey t1.1 t1.2, pairKey t2.1 t2.2] := rfl

/-- Unfolding of one iteration of the builder loop. -/
theorem createGamesAux_cons (ap : List Player) (team1 : Player × Player)
    (rest : List (Player × Player)) (used : List String) :
    createGamesAux ap (team1 :: rest) used =
      if used.contains (pairKey team1.1 team1.2) then createGamesAux ap rest used
      else
        let remainingPlayers :=
          ap.filter (fun p => p.id != team1.1.id && p.id != team1.2.id)
        if 2 ≤ remainingPlayers.length then
          match findTeam2 remainingPlayers used with
          | some team2 =>
              { team1 := team1, team2 := team2 } ::
                createGamesAux ap rest
                  (pairKey team2.1 team2.2 :: pairKey team1.1 team1.2 :: used)
          | none => createGamesAux ap rest used
        else createGamesAux ap rest used := rfl

/-- Every key of every emitted game is fresh with respect to the incoming
used set, and the emitted games pairwise share no canonical key. -/
theorem createGamesAux_keys (ap : List Player) :
    ∀ (pairs : List (Player × Player)) (used : List String),
      (∀ g ∈ createGamesAux ap pairs used, ∀ k ∈ gameKeys g, k ∉ used) ∧
      (createGamesAux ap pairs used).Pairwise
        (fun g1 g2 => ∀ k ∈ gameKeys g1, k ∉ gameKeys g2) := by
  intro pairs
  induction pairs with
  | nil =>
    intro used
    refine ⟨?_, List.Pairwise.nil⟩
    intro g hg
    cases hg
  | cons team1 rest ih =>
    intro used
    rw [createGamesAux_cons]
    by_cases hused : used.contains (pairKey team1.1 team1.2) = true
    · rw [if_pos hused]; exact ih used
    · rw [if_neg hused]
      simp only []
      by_cases hlen : 2 ≤
          (ap.filter (fun p => p.id != team1.1.id && p.id != team1.2.id)).length
      · rw [if_pos hlen]
        cases hfind : findTeam2
            (ap.filter (fun p => p.id != team1.1.id && p.id != team1.2.id)) used with
        | none => exact ih used
        | some team2 =>
          have hk1 : pairKey team1.1 team1.2 ∉ used := by
            cases hc : used.contains (pairKey team1.1 team1.2) with
            | false => exact (contains_eq_false_iff _ _).mp hc
            | true => exact absurd hc hused
          have hk2 : pairKey team2.1 team2.2 ∉ used := by
            have hp := List.find?_some hfind
            simp only [Bool.not_eq_eq_eq_not, Bool.not_false] at hp
            exact (contains_eq_false_iff _ _).mp hp
          obtain ⟨ihFresh, ihPW⟩ :=
            ih (pairKey team2.1 team2.2 :: pairKey team1.1 team1.2 :: used)
          constructor
          · intro g hg k hk
            rcases List.mem_cons.mp hg with rfl | hg'
            · rw [gameKeys_mk] at hk
              rcases List.mem_cons.mp hk with rfl | hk
              · exact hk1
              · rcases List.mem_cons.mp hk with rfl | hk
                · exact hk2
                · cases hk
            · intro hmem
              exact ihFresh g hg' k hk (by simp [hmem])
          · refine List.Pairwise.cons ?_ ihPW
            intro g' hg' k hk hk'
            rw [gameKeys_mk] at hk
            rcases List.mem_cons.mp hk with rfl | hk
            · exact ihFresh g' hg' _ hk' (by simp)
            · rcases List.mem_cons.mp hk with rfl | hk
              · exact ihFresh g' hg' _ hk' (by simp)
              · cases hk
      · rw [if_neg hlen]; exact ih used

/-- Every emitted game draws its first team from the candidate list and its
second team from the pair enumeration of the roster minus the first team's
players. -/
theorem createGamesAux_mem (ap : List Player) :
    ∀ (pairs : List (Player × Player)) (used : List String) (g : AbstractGame),
      g ∈ createGamesAux ap pairs used →
      g.team1 ∈ pairs ∧
      g.team2 ∈ generateAllTeammatePairs
        (ap.filter (fun p => p.id != g.team1.1.id && p.id != g.team1.2.id)) := by
  intro pairs
  induction pairs with
  | nil =>
    intro used g hg
    cases hg
  | cons team1 rest ih =>
    intro used g hg
    rw [createGamesAux_cons] at hg
    by_cases hused : used.contains (pairKey team1.1 team1.2) = true
    · rw [if_pos hused] at hg
      obtain ⟨h1, h2⟩ := ih used g hg
      exact ⟨List.mem_cons_of_mem _ h1, h2⟩
    · rw [if_neg hused] at hg
      simp only [] at hg
      by_cases hlen : 2 ≤
          (ap.filter (fun p => p.id != team1.1.id && p.id != team1.2.id)).length
      · rw [if_pos hlen] at hg
        cases hfind : findTeam2
            (ap.filter (fun p => p.id != team1.1.id && p.id != team1.2.id)) used with
        | none =>
          rw [hfind] at hg
          obtain ⟨h1, h2⟩ := ih used g hg
          exact ⟨List.mem_cons_of_mem _ h1, h2⟩
        | some team2 =>
          rw [hfind] at hg
          rcases List.mem_cons.mp hg with rfl | hg'
          · refine ⟨List.mem_cons_self _ _, ?_⟩
            exact List.mem_of_find?_eq_some hfind
          · obtain ⟨h1, h2⟩ := ih _ g hg'
            exact ⟨List.mem_cons_of_mem _ h1, h2⟩
      · rw [if_neg hlen] at hg
        obtain ⟨h1, h2⟩ := ih used g hg
        exact ⟨List.mem_cons_of_mem _ h1, h2⟩

/-- C2: for every input roster with distinct identifiers, no canonical pair
key (the two player identifiers sorted and joined) occurs as a teammate pair
— team1 or team2 — in more than one game returned by
`createGamesFromTeammatePairs`. -/
theorem c2_no_pair_key_in_two_games (roster : List Player)
    (hids : (roster.map Player.id).Nodup) :
    (createGamesFromTeammatePairs (generateAllTeammatePairs roster) roster).Pairwise
      (fun g1 g2 => ∀ k ∈ gameKeys g1, k ∉ gameKeys g2) :=
  (createGamesAux_keys roster (generateAllTeammatePairs roster) []).2

/-- Witness for C2 at the concrete roster [A, B, C, D]. -/
theorem c2_witness :
    (rosterABCD.map Player.id).Nodup ∧
    (createGamesFromTeammatePairs (generateAllTeammatePairs rosterABCD) rosterABCD).Pairwise
      (fun g1 g2 => ∀ k ∈ gameKeys g1, k ∉ gameKeys g2) :=
  ⟨by decide, c2_no_pair_key_in_two_games rosterABCD (by decide)⟩

/-- C3: for a roster with distinct identifiers, every emitted game consists
of four players with pairwise distinct identifiers (in particular team1 and
team2 share no player), all drawn from the input roster. -/
theorem c3_teams_disjoint_and_from_roster (roster : List Player)
    (hids : (roster.map Player.id).Nodup) :
    ∀ g ∈ createGamesFromTeammatePairs (generateAllTeammatePairs roster) roster,
      ((gamePlayers g).map Player.id).Nodup ∧ ∀ p ∈ gamePlayers g, p ∈ roster := by
  intro g hg
  obtain ⟨h1, h2⟩ := createGamesAux_mem roster (generateAllTeammatePairs roster) [] g hg
  obtain ⟨ht11, ht12⟩ := mem_roster_of_mem_generate h1
  have hne1 : g.team1.1.id ≠ g.team1.2.id := id_ne_of_mem_generate hids h1
  have hsub : ((roster.filter
      (fun p => p.id != g.team1.1.id && p.id != g.team1.2.id)).map Player.id).Nodup :=
    List.Nodup.sublist (List.Sublist.map Player.id (List.filter_sublist roster)) hids
  obtain ⟨ht21, ht22⟩ := mem_roster_of_mem_generate h2
  have hne2 : g.team2.1.id ≠ g.team2.2.id := id_ne_of_mem_generate hsub h2
  obtain ⟨ht21r, ht21p⟩ := List.mem_filter.mp ht21
  obtain ⟨ht22r, ht22p⟩ := List.mem_filter.mp ht22
  simp only [Bool.and_eq_true, bne_iff_ne, ne_eq] at ht21p ht22p
  constructor
  · simp only [gamePlayers, List.map_cons, List.map_nil, List.nodup_cons,
      List.mem_cons, List.not_mem_nil, or_false, not_or, List.nodup_nil]
    refine ⟨⟨hne1, fun h => ht21p.1 h.symm, fun h => ht22p.1 h.symm⟩,
      ⟨fun h => ht21p.2 h.symm, fun h => ht22p.2 h.symm⟩, hne2, not_false, trivial⟩
  · intro p hp
    simp only [gamePlayers, List.mem_cons, List.not_mem_nil, or_false] at hp
    rcases hp with rfl | rfl | rfl | rfl
    · exact ht11
    · exact ht12
    · exact ht21r
    · exact ht22r

/-- Witness for C3 at the concrete roster [A, B, C, D]. -/
theorem c3_witness :
    (rosterABCD.map Player.id).Nodup ∧
    ∀ g ∈ createGamesFromTeammatePairs (generateAllTeammatePairs rosterABCD) rosterABCD,
      ((gamePlayers g).map Player.id).Nodup ∧ ∀ p ∈ gamePlayers g, p ∈ rosterABCD :=
  ⟨by decide, c3_teams_disjoint_and_from_roster rosterABCD (by decide)⟩

/-- C1, counterexample: for the roster [A, B, C, D] the builder does NOT
emit exactly the single game {team1:(A,B), team2:(C,D)}: after emitting it,
the candidate (A,C) still finds the unused opposing pair (B,D), and (A,D)
finds (B,C), so three games are emitted. -/
theorem c1_counterexample :
    createGamesFromTeammatePairs (generateAllTeammatePairs rosterABCD) rosterABCD ≠
      [{ team1 := (pA, pB), team2 := (pC, pD) }] := by decide

/-- C1, amended: for the roster [A, B, C, D], the enumerator produces the six
pairs in order (A,B),(A,C),(A,D),(B,C),(B,D),(C,D), and the builder emits
exactly three games: (A,B) vs (C,D), then (A,C) vs (B,D), then (A,D) vs
(B,C), consuming each of the six pairs exactly once. -/
theorem c1_amended :
    generateAllTeammatePairs rosterABCD =
      [(pA, pB), (pA, pC), (pA, pD), (pB, pC), (pB, pD), (pC, pD)] ∧
    createGamesFromTeammatePairs (generateAllTeammatePairs rosterABCD) rosterABCD =
      [{ team1 := (pA, pB), team2 := (pC, pD) },
       { team1 := (pA, pC), team2 := (pB, pD) },
       { team1 := (pA, pD), team2 := (pB, pC) }] := by decide

/-- The spec's "restricted to indices above i" filter of `range n` is the
source's loop range `[i+1, n)`. -/
theorem range_filter_lt (n i : Nat) :
    (List.range n).filter (fun j => decide (i < j)) = List.range' (i + 1) (n - (i + 1)) := by
  induction n with
  | zero =>
    have h0 : 0 - (i + 1) = 0 := by omega
    rw [h0]
    rfl
  | succ n ih =>
    rw [List.range_succ, List.filter_append, ih]
    by_cases h : i < n
    · have hd : (List.filter (fun j => decide (i < j)) [n]) = [n] := by
        simp [List.filter, h]
      rw [hd]
      have h1 : n + 1 - (i + 1) = (n - (i + 1)) + 1 := by omega
      rw [h1, List.range'_concat]
      have h2 : i + 1 + 1 * (n - (i + 1)) = n := by omega
      rw [h2]
    · have hd : (List.filter (fun j => decide (i < j)) [n]) = [] := by
        simp [List.filter, h]
      rw [hd]
      have h1 : n + 1 - (i + 1) = 0 := by omega
      have h2 : n - (i + 1) = 0 := by omega
      rw [h1, h2, List.append_nil]

/-- The source enumeration equals the spec's §4.1 enumeration: pairs
`(roster[i], roster[j])` for `i < j`, `i` ascending then `j` ascending. -/
theorem generateAllTeammatePairs_eq_spec (roster : List Player) :
    generateAllTeammatePairs roster = specEnumeratePairs roster := by
  unfold generateAllTeammatePairs specEnumeratePairs indexPairs
  rw [List.map_flatMap]
  refine List.flatMap_congr ?_
  intro i _
  rw [List.map_map, range_filter_lt]
  rfl

/-- The enumeration has exactly N·(N−1)/2 pairs. -/
theorem length_generateAllTeammatePairs (players : List Player) :
    (generateAllTeammatePairs players).length =
      players.length * (players.length - 1) / 2 := by
  unfold generateAllTeammatePairs
  rw [List.length_flatMap]
  have h1 : List.map (List.length ∘ innerPairs players) (List.range players.length) =
      List.map (fun i => players.length - 1 - i) (List.range players.length) := by
    refine List.map_congr_left ?_
    intro i _
    simp only [Function.comp_apply, innerPairs, List.length_map, List.length_range']
    omega
  rw [h1]
  have h2 : (List.map (fun i => players.length - 1 - i) (List.range players.length)).sum =
      ∑ i ∈ Finset.range players.length, (players.length - 1 - i) := rfl
  rw [h2]
  have h3 : ∑ i ∈ Finset.range players.length, (players.length - 1 - i) =
      ∑ i ∈ Finset.range players.length, i :=
    Finset.sum_range_reflect (fun j => j) players.length
  rw [h3, Finset.sum_range_id]

/-- The spec's index enumeration is sorted: `i` ascending, then `j`
ascending within each `i`. -/
theorem indexPairs_sorted (n : Nat) :
    (indexPairs n).Pairwise (fun a b => a.1 < b.1 ∨ (a.1 = b.1 ∧ a.2 < b.2)) := by
  unfold indexPairs
  rw [List.pairwise_flatMap]
  constructor
  · intro i _
    rw [List.pairwise_map]
    refine List.Pairwise.imp ?_ ((List.pairwise_lt_range n).filter _)
    intro a b hab
    exact Or.inr ⟨rfl, hab⟩
  · refine List.Pairwise.imp ?_ (List.pairwise_lt_range n)
    intro i1 i2 h12 x hx y hy
    obtain ⟨jx, _, rfl⟩ := List.mem_map.mp hx
    obtain ⟨jy, _, rfl⟩ := List.mem_map.mp hy
    exact Or.inl h12

/-- Every index pair of the spec enumeration satisfies `i < j < n`. -/
theorem indexPairs_bounds (n : Nat) :
    ∀ ij ∈ indexPairs n, ij.1 < ij.2 ∧ ij.2 < n := by
  intro ij hij
  unfold indexPairs at hij
  obtain ⟨i, hi, hmem⟩ := List.mem_flatMap.mp hij
  obtain ⟨j, hj, rfl⟩ := List.mem_map.mp hmem
  obtain ⟨hjr, hlt⟩ := List.mem_filter.mp hj
  exact ⟨by simpa using hlt, List.mem_range.mp hjr⟩

/-- C5: for every roster of N players, `generateAllTeammatePairs` returns
exactly N·(N−1)/2 pairs, equal to the spec's enumeration over index pairs
(i, j) with i < j < N listed with i ascending then j ascending; it is a
total function (no failure modes), and a roster of fewer than two players
yields the empty sequence. -/
theorem c5_enumerator_contract (players : List Player) :
    (generateAllTeammatePairs players).length =
        players.length * (players.length - 1) / 2 ∧
    generateAllTeammatePairs players = specEnumeratePairs players ∧
    (∀ ij ∈ indexPairs players.length, ij.1 < ij.2 ∧ ij.2 < players.length) ∧
    (indexPairs players.length).Pairwise
      (fun a b => a.1 < b.1 ∨ (a.1 = b.1 ∧ a.2 < b.2)) ∧
    (players.length < 2 → generateAllTeammatePairs players = []) := by
  refine ⟨length_generateAllTeammatePairs players,
    generateAllTeammatePairs_eq_spec players,
    indexPairs_bounds players.length,
    indexPairs_sorted players.length, ?_⟩
  intro h
  match players, h with
  | [], _ => rfl
  | [a], _ => rfl

/-- Witness for C5's small-roster clause at the one-player roster. -/
theorem c5_witness :
    ([pA].length < 2 → generateAllTeammatePairs [pA] = []) ∧
    [pA].length < 2 ∧ generateAllTeammatePairs [pA] = [] :=
  ⟨(c5_enumerator_contract [pA]).2.2.2.2, by decide,
    (c5_enumerator_contract [pA]).2.2.2.2 (by decide)⟩

/-- Unfolding of one step of the spec's Schedule Builder. -/
theorem specBuilderAux_cons (roster : List Player) (team1 : Player × Player)
    (rest : List (Player × Player)) (s : Finset String) :
    specBuilderAux roster (team1 :: rest) s =
      if pairKey team1.1 team1.2 ∈ s then specBuilderAux roster rest s
      else
        let remaining :=
          roster.filter (fun p => decide (¬(p.id = team1.1.id ∨ p.id = team1.2.id)))
        if remaining.length < 2 then specBuilderAux roster rest s
        else
          match (specEnumeratePairs remaining).find?
              (fun t => decide (pairKey t.1 t.2 ∉ s)) with
          | none => specBuilderAux roster rest s
          | some team2 =>
              { team1 := team1, team2 := team2 } ::
                specBuilderAux roster rest
                  (insert (pairKey team1.1 team1.2)
                    (insert (pairKey team2.1 team2.2) s)) := rfl

/-- The source builder loop agrees with the spec's builder loop whenever the
used-key list and used-key set agree on membership. -/
theorem createGamesAux_eq_specBuilderAux (roster : List Player) :
    ∀ (pairs : List (Player × Player)) (u : List String) (s : Finset String),
      (∀ k, k ∈ u ↔ k ∈ s) →
      createGamesAux roster pairs u = specBuilderAux roster pairs s := by
  intro pairs
  induction pairs with
  | nil => intro u s _; rfl
  | cons team1 rest ih =>
    intro u s hus
    rw [createGamesAux_cons, specBuilderAux_cons]
    simp only []
    have hpred : ∀ k : String, (!(u.contains k)) = decide (k ∉ s) := by
      intro k
      by_cases hk : k ∈ s
      · have hc : u.contains k = true := List.elem_iff.mpr ((hus k).mpr hk)
        rw [hc]
        simp [hk]
      · have hc : u.contains k = false :=
          (contains_eq_false_iff u k).mpr (fun hku => hk ((hus k).mp hku))
        rw [hc]
        simp [hk]
    by_cases hk1 : pairKey team1.1 team1.2 ∈ s
    · have hc : u.contains (pairKey team1.1 team1.2) = true :=
        List.elem_iff.mpr ((hus _).mpr hk1)
      rw [hc, if_pos hk1]
      simp only [if_true]
      exact ih u s hus
    · have hc : u.contains (pairKey team1.1 team1.2) = false :=
        (contains_eq_false_iff u _).mpr (fun hku => hk1 ((hus _).mp hku))
      rw [hc, if_neg hk1]
      simp only [Bool.false_eq_true, if_false]
      have hrem : roster.filter (fun p => p.id != team1.1.id && p.id != team1.2.id) =
          roster.filter (fun p => decide (¬(p.id = team1.1.id ∨ p.id = team1.2.id))) := by
        refine List.filter_congr ?_
        intro p _
        by_cases h1 : p.id = team1.1.id <;> by_cases h2 : p.id = team1.2.id <;>
          simp [h1, h2]
      rw [hrem]
      set rem := roster.filter
        (fun p => decide (¬(p.id = team1.1.id ∨ p.id = team1.2.id))) with hremdef
      have hfind : findTeam2 rem u =
          (specEnumeratePairs rem).find? (fun t => decide (pairKey t.1 t.2 ∉ s)) := by
        unfold findTeam2
        rw [generateAllTeammatePairs_eq_spec]
        congr 1
        funext t
        exact hpred (pairKey t.1 t.2)
      by_cases hlen : 2 ≤ rem.length
      · rw [if_pos hlen, if_neg (by omega)]
        rw [hfind]
        cases hres : (specEnumeratePairs rem).find?
            (fun t => decide (pairKey t.1 t.2 ∉ s)) with
        | none => exact ih u s hus
        | some team2 =>
          have hnext : ∀ k,
              k ∈ pairKey team2.1 team2.2 :: pairKey team1.1 team1.2 :: u ↔
              k ∈ insert (pairKey team1.1 team1.2)
                (insert (pairKey team2.1 team2.2) s) := by
            intro k
            simp only [List.mem_cons, Finset.mem_insert, hus k]
            tauto
          exact congrArg (List.cons { team1 := team1, team2 := team2 })
            (ih _ _ hnext)
      · rw [if_neg hlen, if_pos (by omega)]
        exact ih u s hus

/-- C4: `createGamesFromTeammatePairs` is extensionally equal to the spec's
step-by-step greedy algorithm (§4.2): single pass in order, skip used team1
keys, remaining = roster minus team1's players, skip when fewer than two
remain, team2 = first unused pair of `remaining` in (i, j) ascending order,
skip when none, otherwise emit the game and insert both canonical keys. -/
theorem c4_builder_refines_spec (teammatePairs : List (Player × Player))
    (allPlayers : List Player) :
    createGamesFromTeammatePairs teammatePairs allPlayers =
      specScheduleBuilder teammatePairs allPlayers :=
  createGamesAux_eq_specBuilderAux allPlayers teammatePairs [] ∅ (by simp)

/-- C6: a roster of fewer than four players makes `generateRoundRobinGames`
signal the insufficient-players error before any pairing work: whatever the
authentication state and the persistence sink do, the result is the error
and nothing is persisted. -/
theorem c6_insufficient_players (roster : List Player) (authOk : Bool)
    (fails : NewGame → Bool) (h : roster.length < 4) :
    generateRoundRobinGames roster authOk fails =
      (RRResult.insufficientPlayers, []) := by
  unfold generateRoundRobinGames
  rw [if_pos h]

/-- Witness for C6 at the three-player roster [A, B, C]. -/
theorem c6_witness :
    [pA, pB, pC].length < 4 ∧
    generateRoundRobinGames [pA, pB, pC] true failsOne =
      (RRResult.insufficientPlayers, []) :=
  ⟨by decide, c6_insufficient_players [pA, pB, pC] true failsOne (by decide)⟩

/-- C7: for every roster of at least four players with distinct identifiers,
the builder terminates with at least one emitted game (it is a total
function, so it raises nothing); leftover unpaired players are legal. -/
theorem c7_at_least_one_game (roster : List Player) (h4 : 4 ≤ roster.length)
    (hids : (roster.map Player.id).Nodup) :
    1 ≤ (createGamesFromTeammatePairs
      (generateAllTeammatePairs roster) roster).length := by
  obtain ⟨a, b, c, d, t, rfl⟩ :
      ∃ a b c d t, roster = a :: b :: c :: d :: t := by
    rcases roster with _ | ⟨a, _ | ⟨b, _ | ⟨c, _ | ⟨d, t⟩⟩⟩⟩
    · exfalso; simp at h4
    · exfalso; simp at h4
    · exfalso; simp at h4
    · exfalso; simp at h4
    · exact ⟨a, b, c, d, t, rfl⟩
  simp only [List.map_cons, List.nodup_cons, List.mem_cons, List.mem_map,
    not_or, not_exists, not_and] at hids
  obtain ⟨⟨hab, hac, had, _⟩, ⟨hbc, hbd, _⟩, ⟨hcd, _⟩, _⟩ := hids
  obtain ⟨rest, hgen⟩ := generateAllTeammatePairs_cons₂ a b (c :: d :: t)
  unfold createGamesFromTeammatePairs
  rw [hgen, createGamesAux_cons]
  have hcont : (([] : List String).contains (pairKey (a, b).1 (a, b).2)) = false := rfl
  rw [hcont]
  simp only [Bool.false_eq_true, if_false]
  have hcmem : c ∈ (a :: b :: c :: d :: t).filter
      (fun p => p.id != (a, b).1.id && p.id != (a, b).2.id) := by
    refine List.mem_filter.mpr ⟨by simp, ?_⟩
    simp only [Bool.and_eq_true, bne_iff_ne, ne_eq]
    exact ⟨fun h => hac h.symm, fun h => hbc h.symm⟩
  have hdmem : d ∈ (a :: b :: c :: d :: t).filter
      (fun p => p.id != (a, b).1.id && p.id != (a, b).2.id) := by
    refine List.mem_filter.mpr ⟨by simp, ?_⟩
    simp only [Bool.and_eq_true, bne_iff_ne, ne_eq]
    exact ⟨fun h => had h.symm, fun h => hbd h.symm⟩
  have hcd' : c ≠ d := fun h => hcd (congrArg Player.id h)
  have hlen : 2 ≤ ((a :: b :: c :: d :: t).filter
      (fun p => p.id != (a, b).1.id && p.id != (a, b).2.id)).length := by
    have hsub : [c, d] ⊆ (a :: b :: c :: d :: t).filter
        (fun p => p.id != (a, b).1.id && p.id != (a, b).2.id) := by
      intro x hx
      rcases List.mem_cons.mp hx with rfl | hx
      · exact hcmem
      · rcases List.mem_cons.mp hx with rfl | hx
        · exact hdmem
        · cases hx
    have hnd : ([c, d] : List Player).Nodup := by
      simp [List.nodup_cons, hcd']
    exact (hnd.subperm hsub).length_le
  rw [if_pos hlen]
  obtain ⟨r1, r2, rt, hremeq⟩ :
      ∃ r1 r2 rt, (a :: b :: c :: d :: t).filter
        (fun p => p.id != (a, b).1.id && p.id != (a, b).2.id) = r1 :: r2 :: rt := by
    rcases hr : (a :: b :: c :: d :: t).filter
        (fun p => p.id != (a, b).1.id && p.id != (a, b).2.id) with _ | ⟨r1, _ | ⟨r2, rt⟩⟩
    · rw [hr] at hlen; exfalso; simp at hlen
    · rw [hr] at hlen; exfalso; simp at hlen
    · exact ⟨r1, r2, rt, hr⟩
  rw [hremeq]
  obtain ⟨grest, hgen2⟩ := generateAllTeammatePairs_cons₂ r1 r2 rt
  have hfind : findTeam2 (r1 :: r2 :: rt) [] = some (r1, r2) := by
    unfold findTeam2
    rw [hgen2]
    exact List.find?_cons_of_pos _ rfl
  rw [hfind]
  simp

/-- Witness for C7 at the five-player roster [A, B, C, D, E]. -/
theorem c7_witness :
    4 ≤ rosterABCDE.length ∧ (rosterABCDE.map Player.id).Nodup ∧
    1 ≤ (createGamesFromTeammatePairs
      (generateAllTeammatePairs rosterABCDE) rosterABCDE).length :=
  ⟨by decide, by decide, c7_at_least_one_game rosterABCDE (by decide) (by decide)⟩

/-- C8: the generation pipeline is deterministic — two invocations of the
pair enumerator followed by the schedule builder on the same roster produce
structurally identical game sequences. -/
theorem c8_deterministic (roster1 roster2 : List Player) (h : roster1 = roster2) :
    createGamesFromTeammatePairs (generateAllTeammatePairs roster1) roster1 =
      createGamesFromTeammatePairs (generateAllTeammatePairs roster2) roster2 := by
  rw [h]

/-- Witness for C8 at the concrete roster [A, B, C, D]. -/
theorem c8_witness :
    rosterABCD = rosterABCD ∧
    createGamesFromTeammatePairs (generateAllTeammatePairs rosterABCD) rosterABCD =
      createGamesFromTeammatePairs (generateAllTeammatePairs rosterABCD) rosterABCD :=
  ⟨rfl, c8_deterministic rosterABCD rosterABCD rfl⟩

/-- C9, counterexample: under partial persistence failure the caller is NOT
given a count of how many games succeeded.  For the roster [A, B, C, D]
(three emitted games), a sink failing only the second write and a sink
failing the second and third writes leave different numbers of persisted
games (2 versus 1), yet the caller-visible outcome is the identical generic
error message — `Promise.all` rejects and `handleGenerateRoundRobin` catches
it — so no success count can reach the caller. -/
theorem c9_counterexample :
    (handleGenerateRoundRobin rosterABCD true failsOne).1 =
      (handleGenerateRoundRobin rosterABCD true failsTwo).1 ∧
    (handleGenerateRoundRobin rosterABCD true failsOne).2.length = 2 ∧
    (handleGenerateRoundRobin rosterABCD true failsTwo).2.length = 1 ∧
    ((createGamesFromTeammatePairs (generateAllTeammatePairs rosterABCD)
      rosterABCD).map gameToNewGame).length = 3 := by decide

/-- C9, amended: when at least one write fails, the already-succeeded
persisted games are indeed not rolled back (exactly the records the sink
accepted remain persisted), but the caller receives only the fixed generic
error message, not a count of successes versus the emitted count. -/
theorem c9_amended (roster : List Player) (fails : NewGame → Bool)
    (h4 : ¬ roster.length < 4)
    (hfail : ((createGamesFromTeammatePairs (generateAllTeammatePairs roster)
        roster).map gameToNewGame).any fails = true) :
    handleGenerateRoundRobin roster true fails =
      (UIMessage.uiError "Failed to generate round robin games",
       ((createGamesFromTeammatePairs (generateAllTeammatePairs roster)
         roster).map gameToNewGame).filter (fun g => !fails g)) := by
  unfold handleGenerateRoundRobin generateRoundRobinGames
  rw [if_neg h4]
  simp only [Bool.not_true, Bool.false_eq_true, if_false, hfail, if_true]

/-- Witness for the amended C9 at the roster [A, B, C, D] with the sink
failing the second write. -/
theorem c9_amended_witness :
    (¬ rosterABCD.length < 4) ∧
    ((createGamesFromTeammatePairs (generateAllTeammatePairs rosterABCD)
      rosterABCD).map gameToNewGame).any failsOne = true ∧
    handleGenerateRoundRobin rosterABCD true failsOne =
      (UIMessage.uiError "Failed to generate round robin games",
       ((createGamesFromTeammatePairs (generateAllTeammatePairs rosterABCD)
         rosterABCD).map gameToNewGame).filter (fun g => !failsOne g)) :=
  ⟨by decide, by decide, c9_amended rosterABCD failsOne (by decide) (by decide)⟩

/-- A fold whose body never changes the second component leaves it at its
initial value. -/
theorem foldl_snd_eq {α β γ : Type} (f : α × γ → β → α × γ)
    (hf : ∀ a x, (f a x).2 = a.2) :
    ∀ (l : List β) (init : α × γ), (l.foldl f init).2 = init.2 := by
  intro l
  induction l with
  | nil => intro init; rfl
  | cons x xs ih =>
    intro init
    rw [List.foldl_cons, ih, hf]

/-- The store-passing enumerator hands the array state back unchanged. -/
theorem generateAllTeammatePairsS_state (s : ArrayState) :
    (generateAllTeammatePairsS s).2 = s := by
  unfold generateAllTeammatePairsS
  refine foldl_snd_eq _ ?_ _ _
  intro a i
  refine foldl_snd_eq _ ?_ _ _
  intro a2 j
  rfl

/-- With the state pinned, the inner store-passing loop appends exactly the
pairs of the inner source loop. -/
theorem innerFoldS_eq (s : ArrayState) (i : Nat) :
    ∀ (l : List Nat) (acc : List (Player × Player)),
      l.foldl (fun acc2 j =>
          (acc2.1 ++ [(acc2.2.players.getD i default, acc2.2.players.getD j default)],
           acc2.2)) (acc, s) =
        (acc ++ l.map (fun j => (s.players.getD i default, s.players.getD j default)),
         s) := by
  intro l
  induction l with
  | nil => intro acc; simp
  | cons j js ih =>
    intro acc
    rw [List.foldl_cons]
    show js.foldl _ (acc ++ [(s.players.getD i default, s.players.getD j default)], s) = _
    rw [ih]
    simp

/-- The store-passing enumerator computes `generateAllTeammatePairs`. -/
theorem generateAllTeammatePairsS_result (s : ArrayState) :
    (generateAllTeammatePairsS s).1 = generateAllTeammatePairs s.players := by
  unfold generateAllTeammatePairsS generateAllTeammatePairs
  suffices h : ∀ (l : List Nat) (acc : List (Player × Player)),
      (l.foldl (fun acc i =>
          (List.range' (i + 1) (acc.2.players.length - (i + 1))).foldl
            (fun acc2 j =>
              (acc2.1 ++ [(acc2.2.players.getD i default, acc2.2.players.getD j default)],
               acc2.2)) acc) (acc, s)).1 =
        acc ++ l.flatMap (innerPairs s.players) by
    simpa using h (List.range s.players.length) []
  intro l
  induction l with
  | nil => intro acc; simp
  | cons i is ih =>
    intro acc
    rw [List.foldl_cons]
    show (is.foldl _ ((List.range' (i + 1) (s.players.length - (i + 1))).foldl _ (acc, s))).1 = _
    rw [innerFoldS_eq s i]
    rw [ih]
    simp [innerPairs, List.flatMap_cons, List.append_assoc]

/-- One builder step hands the state back unchanged. -/
theorem createGamesStepS_snd (acc : (List AbstractGame × List String) × ArrayState)
    (team1 : Player × Player) : (createGamesStepS acc team1).2 = acc.2 := by
  unfold createGamesStepS
  by_cases h1 : acc.1.2.contains (pairKey team1.1 team1.2) = true
  · rw [if_pos h1]
  · rw [if_neg h1]
    simp only []
    by_cases h2 : 2 ≤ (acc.2.players.filter
        (fun p => p.id != team1.1.id && p.id != team1.2.id)).length
    · rw [if_pos h2]
      cases hf : findTeam2 (acc.2.players.filter
          (fun p => p.id != team1.1.id && p.id != team1.2.id)) acc.1.2 with
      | none => rfl
      | some team2 => rfl
    · rw [if_neg h2]

/-- The store-passing builder hands the array state back unchanged. -/
theorem createGamesFromTeammatePairsS_state (s : ArrayState) :
    (createGamesFromTeammatePairsS s).2 = s := by
  unfold createGamesFromTeammatePairsS
  exact foldl_snd_eq _ createGamesStepS_snd _ _

/-- With the state pinned, the store-passing builder fold accumulates
exactly the games of `createGamesAux`. -/
theorem createGamesFoldS_eq (s : ArrayState) :
    ∀ (pairs : List (Player × Player)) (games : List AbstractGame)
      (used : List String),
      (pairs.foldl createGamesStepS ((games, used), s)).1.1 =
        games ++ createGamesAux s.players pairs used := by
  intro pairs
  induction pairs with
  | nil => intro games used; simp [createGamesAux]
  | cons team1 ts ih =>
    intro games used
    rw [List.foldl_cons, createGamesAux_cons]
    by_cases h1 : used.contains (pairKey team1.1 team1.2) = true
    · have hstep : createGamesStepS ((games, used), s) team1 = ((games, used), s) := by
        unfold createGamesStepS
        dsimp only
        rw [if_pos h1]
      rw [hstep, if_pos h1, ih]
    · by_cases h2 : 2 ≤ (s.players.filter
          (fun p => p.id != team1.1.id && p.id != team1.2.id)).length
      · cases hf : findTeam2 (s.players.filter
            (fun p => p.id != team1.1.id && p.id != team1.2.id)) used with
        | none =>
          have hstep : createGamesStepS ((games, used), s) team1 = ((games, used), s) := by
            unfold createGamesStepS
            dsimp only
            rw [if_neg h1, if_pos h2, hf]
          rw [hstep, if_neg h1]
          dsimp only
          rw [if_pos h2, hf, ih]
        | some team2 =>
          have hstep : createGamesStepS ((games, used), s) team1 =
              ((games ++ [{ team1 := team1, team2 := team2 }],
                pairKey team2.1 team2.2 :: pairKey team1.1 team1.2 :: used), s) := by
            unfold createGamesStepS
            dsimp only
            rw [if_neg h1, if_pos h2, hf]
          rw [hstep, if_neg h1]
          dsimp only
          rw [if_pos h2, hf, ih]
          simp [List.append_assoc]
      · have hstep : createGamesStepS ((games, used), s) team1 = ((games, used), s) := by
          unfold createGamesStepS
          dsimp only
          rw [if_neg h1, if_neg h2]
        rw [hstep, if_neg h1]
        dsimp only
        rw [if_neg h2, ih]

/-- C10: the pairing functions leave their inputs unchanged.  In the
store-passing translation, both the enumerator and the builder return the
array state — the roster array and the candidate-pair array, with the Player
records they contain — exactly as received, while computing the same results
as the direct functions. -/
theorem c10_inputs_unchanged (s : ArrayState) :
    (generateAllTeammatePairsS s).2 = s ∧
    (createGamesFromTeammatePairsS s).2 = s ∧
    (generateAllTeammatePairsS s).1 = generateAllTeammatePairs s.players ∧
    (createGamesFromTeammatePairsS s).1 =
      createGamesFromTeammatePairs s.teammatePairs s.players := by
  refine ⟨generateAllTeammatePairsS_state s, createGamesFromTeammatePairsS_state s,
    generateAllTeammatePairsS_result s, ?_⟩
  unfold createGamesFromTeammatePairsS createGamesFromTeammatePairs
  simpa using createGamesFoldS_eq s s.teammatePairs [] []
